import Mathlib

/-!
Verification development for the BigGuyBueSell trade poller.

The definitions below are a shallow embedding of the Python sources:
  - `database/models.py` (`Trade`)
  - `database/manager.py` (`DatabaseManager.create_tables`, `DatabaseManager.save_trades`)
  - `database/pairs_cache.py` (`PairsCacheManager.update_pairs_cache`)
  - `workers/exchange_worker.py` (`ExchangeWorker.get_trading_pairs`,
    `ExchangeWorker.process_pair`, `ExchangeWorker.run_cycle`)
  - `utils/rate_limiter.py` (`RateLimiter.acquire`)
  - `bybit_continuous_monitor.py` (`BybitContinuousMonitor._process_trades_data`,
    `_monitor_pair_continuously`, `_save_pending_trades`)

Decimal values are modelled as rationals, timestamps as rationals (seconds)
or integers (milliseconds), and MySQL tables as lists of rows carrying the
constraints the DDL declares.  Fallible Python code (a raised exception)
is modelled with `Option`.
-/

set_option autoImplicit false

/-- Model of `database/models.py : Trade`.  `id` is kept as a string, as in the
source (comment there: string for compatibility across exchanges).  `price`,
`quantity` and `value_usd` are `Decimal` in the source, modelled as rationals.
`trade_time` is milliseconds since epoch. -/
structure Trade where
  id : String
  exchange : String
  symbol : String
  baseAsset : String
  price : ℚ
  quantity : ℚ
  valueUsd : ℚ
  quoteAsset : String
  isBuyerMaker : Bool
  tradeTime : Int
  deriving DecidableEq, Repr

/-- Decimal value of a character run: `some` exactly when the run is a
nonempty string of decimal digits. -/
def digitsToNat (l : List Char) : Option Nat :=
  if l ≠ [] ∧ l.all (fun c => c.isDigit) then
    some (l.foldl (fun acc c => acc * 10 + (c.toNat - 48)) 0)
  else none

/-- Model of the Python built-in `int(s)` applied to a string: an optional
sign followed by a nonempty run of decimal digits parses to an integer, and
anything else raises `ValueError` (modelled as `none`).  This is the
conversion `save_trades` applies to `trade.id` in `database/manager.py`
lines 150 and 185. -/
def pyIntOfString (s : String) : Option Int :=
  match s.toList with
  | [] => none
  | c :: cs =>
      if c = '-' then (digitsToNat cs).map (fun n => -(n : Int))
      else if c = '+' then (digitsToNat cs).map (fun n => (n : Int))
      else (digitsToNat (c :: cs)).map (fun n => (n : Int))

/-- One row of the `large_trades` table created by
`DatabaseManager.create_tables` (`database/manager.py` lines 52-86).
The DDL declares `id BIGINT PRIMARY KEY`: the primary key is the `id`
column alone; `exchange` is an ordinary indexed column. -/
structure TradeRow where
  rowId : Int
  exchange : String
  symbol : String
  baseAsset : String
  price : ℚ
  quantity : ℚ
  valueUsd : ℚ
  quoteAsset : String
  isBuyerMaker : Bool
  tradeTime : Int
  deriving DecidableEq, Repr

/-- The `large_trades` table, as a list of rows.  The primary-key constraint
on `id` is enforced operationally by `insertIgnoreRow` below. -/
abbrev LargeTradesTable := List TradeRow

/-- Model of one row of `INSERT IGNORE INTO large_trades ...`
(`database/manager.py` lines 143-147): the row is inserted unless a row with
the same primary-key value (`id` alone, per the DDL) already exists; a
conflicting row is silently skipped and does not count towards the
affected-row count. -/
def insertIgnoreRow (db : LargeTradesTable) (r : TradeRow) : LargeTradesTable × Nat :=
  if db.any (fun row => row.rowId == r.rowId) then (db, 0) else (db ++ [r], 1)

/-- Model of `cursor.executemany(insert_sql, values)` for the
`INSERT IGNORE` statement: rows are attempted in order and `rowcount`
accumulates the per-row affected counts. -/
def insertIgnoreMany (db : LargeTradesTable) (rows : List TradeRow) : LargeTradesTable × Nat :=
  rows.foldl (fun acc r =>
    let step := insertIgnoreRow acc.1 r
    (step.1, acc.2 + step.2)) (db, 0)

/-- The `(exchange, int(trade.id))` key `save_trades` computes for every
trade in the batch (`database/manager.py` line 150); `none` models the
`ValueError` raised by `int` on a non-numeric id. -/
def tradeKey (t : Trade) : Option (String × Int) :=
  (pyIntOfString t.id).map (fun n => (t.exchange, n))

/-- The key list built by the comprehension
`[(trade.exchange, int(trade.id)) for trade in trades]`
(`database/manager.py` line 150): the comprehension raises at the first
non-numeric id, modelled by the whole list computation returning `none`. -/
def tradeKeys : List Trade → Option (List (String × Int))
  | [] => some []
  | t :: ts => do
      let k ← tradeKey t
      let ks ← tradeKeys ts
      some (k :: ks)

/-- The row `save_trades` builds for a new trade
(`database/manager.py` lines 184-198). -/
def rowOfTrade (t : Trade) (n : Int) : TradeRow :=
  { rowId := n
    exchange := t.exchange
    symbol := t.symbol
    baseAsset := t.baseAsset
    price := t.price
    quantity := t.quantity
    valueUsd := t.valueUsd
    quoteAsset := t.quoteAsset
    isBuyerMaker := t.isBuyerMaker
    tradeTime := t.tradeTime }

/-- Does the table hold a row matching both columns of a
`(exchange, id)` pair?  This is the membership the `SELECT exchange, id
FROM large_trades WHERE (exchange = %s AND id = %s) OR ...` pre-check
observes (`database/manager.py` lines 152-165). -/
def dbHasPair (db : LargeTradesTable) (k : String × Int) : Bool :=
  db.any (fun row => row.exchange == k.1 && row.rowId == k.2)

/-- Model of `DatabaseManager.save_trades` (`database/manager.py`
lines 130-214).  Steps, mirroring the source:
  1. an empty batch returns `(0, 0)` untouched;
  2. every trade id is converted with `int(trade.id)` — a non-numeric id
     raises `ValueError`, modelled by the whole call returning `none`;
  3. the existing `(exchange, id)` pairs among the batch keys are fetched
     from the table;
  4. trades whose pair is already present count as duplicates, the rest
     are bulk-inserted with `INSERT IGNORE`;
  5. the returned pair is `(cursor.rowcount of the insert, duplicate count)`.
-/
def saveTrades (db : LargeTradesTable) (trades : List Trade) :
    Option (LargeTradesTable × Nat × Nat) :=
  if trades.isEmpty then some (db, 0, 0)
  else do
    let keys ← tradeKeys trades
    let tagged := trades.zip keys
    let isDup : Trade × (String × Int) → Bool := fun p => dbHasPair db p.2
    let duplicateCount := (tagged.filter isDup).length
    let newTagged := tagged.filter (fun p => !isDup p)
    let rows := newTagged.map (fun p => rowOfTrade p.1 p.2.2)
    let ins := insertIgnoreMany db rows
    some (ins.1, ins.2, duplicateCount)

/-- Model of `database/models.py : TradingPairInfo`. -/
structure TradingPairInfo where
  exchange : String
  symbol : String
  baseAsset : String
  quoteAsset : String
  volume24hUsd : ℚ
  quotePriceUsd : ℚ
  deriving DecidableEq, Repr

/-- One row of the `trading_pairs_cache` table
(`database/pairs_cache.py` lines 29-58).  The DDL there declares
`UNIQUE KEY unique_exchange_symbol (exchange, symbol)`; `last_updated`
is a timestamp refreshed by the upsert. -/
structure PairRow where
  exchange : String
  symbol : String
  baseAsset : String
  quoteAsset : String
  volume24hUsd : ℚ
  quotePriceUsd : ℚ
  isActive : Bool
  lastUpdated : ℚ
  deriving DecidableEq, Repr

/-- The `trading_pairs_cache` table, as a list of rows with the
`(exchange, symbol)` key unique. -/
abbrev PairsTable := List PairRow

/-- Model of `PairsCacheManager._sanitize_asset_name`
(`database/pairs_cache.py` lines 163-182): truncate an asset name to at
most 20 characters. -/
def sanitizeAssetName (s : String) : String :=
  if s.length > 20 then s.take 20 else s

/-- Number of active rows for an exchange, the quantity the
`SELECT COUNT(*) ... WHERE exchange = %s AND is_active = TRUE` queries in
`update_pairs_cache` observe before and after the upsert. -/
def activePairCount (db : PairsTable) (exch : String) : Nat :=
  (db.filter (fun r => r.exchange == exch && r.isActive)).length

/-- The row the upsert writes for one incoming pair: asset names
sanitized, `is_active = TRUE`, `last_updated = CURRENT_TIMESTAMP`
(`database/pairs_cache.py` lines 200-211 and 239-246). -/
def upsertRow (exch : String) (now : ℚ) (p : TradingPairInfo) : PairRow :=
  { exchange := exch
    symbol := p.symbol
    baseAsset := sanitizeAssetName p.baseAsset
    quoteAsset := sanitizeAssetName p.quoteAsset
    volume24hUsd := p.volume24hUsd
    quotePriceUsd := p.quotePriceUsd
    isActive := true
    lastUpdated := now }

/-- Model of one row of `INSERT ... ON DUPLICATE KEY UPDATE` against the
`(exchange, symbol)` unique key.  MySQL reports an affected-row count of 1
for a fresh insert, 2 for a duplicate-key update that changes the row, and
0 for a duplicate-key update that leaves every column at its current
value. -/
def upsertPair (db : PairsTable) (exch : String) (now : ℚ) (p : TradingPairInfo) :
    PairsTable × Nat :=
  let newRow := upsertRow exch now p
  let hit : PairRow → Bool := fun r => r.exchange == exch && r.symbol == p.symbol
  match db.find? hit with
  | none => (db ++ [newRow], 1)
  | some old =>
      (db.map (fun r => if hit r then newRow else r),
       if newRow == old then 0 else 2)

/-- `cursor.executemany` over the upsert: rows in order, affected-row
counts summed into `rowcount`. -/
def upsertMany (db : PairsTable) (exch : String) (now : ℚ) (pairs : List TradingPairInfo) :
    PairsTable × Nat :=
  pairs.foldl (fun acc p =>
    let step := upsertPair acc.1 exch now p
    (step.1, acc.2 + step.2)) (db, 0)

/-- Model of `PairsCacheManager.update_pairs_cache`
(`database/pairs_cache.py` lines 184-281).  Mirroring the source:
  1. an empty pair list returns `(0, 0, 0)` untouched;
  2. `old_count` = active rows for the exchange before the update;
  3. every incoming pair is upserted (insert-or-update on
     `(exchange, symbol)`, `is_active` forced TRUE, `last_updated` = now);
  4. active rows of the exchange whose symbol is not among the incoming
     symbols are set inactive; their number is `deactivated_count`;
  5. `new_count` = active rows after both steps;
  6. the returned counts are `added = max(0, new_count - old_count)`,
     `updated = min(upsert rowcount, old_count)`, `deactivated`. -/
def updatePairsCache (db : PairsTable) (exch : String) (now : ℚ)
    (pairs : List TradingPairInfo) : PairsTable × Nat × Nat × Nat :=
  if pairs.isEmpty then (db, 0, 0, 0)
  else
    let oldCount := activePairCount db exch
    let up := upsertMany db exch now pairs
    let db1 := up.1
    let upsertedCount := up.2
    let symbols := pairs.map (fun p => p.symbol)
    let toDeactivate : PairRow → Bool := fun r =>
      r.exchange == exch && !(symbols.contains r.symbol) && r.isActive
    let deactivatedCount := (db1.filter toDeactivate).length
    let db2 := db1.map (fun r =>
      if toDeactivate r then { r with isActive := false } else r)
    let newCount := activePairCount db2 exch
    let addedCount := ((max 0 ((newCount : Int) - (oldCount : Int)))).toNat
    let updatedCount := min upsertedCount oldCount
    (db2, addedCount, updatedCount, deactivatedCount)

/-- In-process cache fields of `ExchangeWorker`
(`workers/exchange_worker.py` lines 57-62): the quick cache, its fill
time, and the time of the last API refresh attempt.  A Python `None` is
`none`; an empty quick cache and `None` are conflated into `[]`, which is
faithful because the source only ever tests the attribute for truthiness. -/
structure WorkerCacheState where
  quickCache : List TradingPairInfo
  quickCacheTime : Option ℚ
  lastApiCall : Option ℚ
  deriving DecidableEq, Repr

/-- The environment one `get_trading_pairs` call runs in: the current
wall-clock time, the answers the persistent tier would give
(`is_cache_fresh` with a 3-hour threshold and `get_cached_pairs`), and the
outcome of an API refresh (`update_pairs_cache` returns the fresh pair
list, or `None` after an internal failure or an empty filter result —
note that `update_pairs_cache` wraps its whole body in
`try/except Exception: return None`, so it never raises). -/
structure CacheFetchEnv where
  now : ℚ
  dbCacheFresh : Bool
  dbCachedPairs : List TradingPairInfo
  apiPairs : Option (List TradingPairInfo)
  deriving DecidableEq, Repr

/-- Result of one `get_trading_pairs` call: the returned pair list
(`[]` for a Python `None` or empty list, again conflated by truthiness),
the updated in-process state, and whether an exchange API refresh was
attempted. -/
structure FetchResult where
  pairs : List TradingPairInfo
  state : WorkerCacheState
  apiCalled : Bool
  deriving DecidableEq, Repr

/-- `self._quick_cache_ttl = 1800` seconds (`workers/exchange_worker.py` line 60). -/
def QUICK_CACHE_TTL : ℚ := 1800

/-- `self._api_cooldown = 3600` seconds (`workers/exchange_worker.py` line 61). -/
def API_COOLDOWN : ℚ := 3600

/-- The quick-cache hit test of `get_trading_pairs`
(`workers/exchange_worker.py` lines 71-76): cache truthy, fill time
truthy, and age strictly below the TTL. -/
def quickCacheHit (s : WorkerCacheState) (now : ℚ) : Bool :=
  !s.quickCache.isEmpty &&
    (match s.quickCacheTime with
     | none => false
     | some t => decide (now - t < QUICK_CACHE_TTL))

/-- The API-cooldown test (`workers/exchange_worker.py` lines 79-80):
the API is allowed when no previous call is recorded or the cooldown has
fully elapsed. -/
def apiAllowedCheck (lastApiCall : Option ℚ) (now : ℚ) : Bool :=
  match lastApiCall with
  | none => true
  | some t => decide (now - t ≥ API_COOLDOWN)

/-- Model of `ExchangeWorker.get_trading_pairs`
(`workers/exchange_worker.py` lines 66-126).  Mirroring the source:
  1. a quick-cache hit returns the quick cache untouched, no I/O;
  2. otherwise, when the API is in cooldown and the persistent tier is
     fresh (3-hour threshold), the persistent-tier pairs are taken;
  3. when nothing was obtained and the API is allowed, the refresh
     timestamp is recorded first and the API refresh is attempted; the
     source clears the timestamp in an `except` branch, but
     `update_pairs_cache` catches every `Exception` internally and
     returns `None`, so a failed refresh leaves the timestamp recorded;
  4. when still nothing was obtained and a quick cache exists, the stale
     quick cache is returned as a fallback;
  5. a nonempty result is stored into the quick cache and returned. -/
def getTradingPairs (s : WorkerCacheState) (env : CacheFetchEnv) : FetchResult :=
  if quickCacheHit s env.now then
    { pairs := s.quickCache, state := s, apiCalled := false }
  else
    let apiAllowed := apiAllowedCheck s.lastApiCall env.now
    let tp0 : List TradingPairInfo :=
      if !apiAllowed && env.dbCacheFresh then env.dbCachedPairs else []
    let afterApi : List TradingPairInfo × WorkerCacheState × Bool :=
      if tp0.isEmpty && apiAllowed then
        (env.apiPairs.getD [], { s with lastApiCall := some env.now }, true)
      else (tp0, s, false)
    let tp1 := afterApi.1
    let s1 := afterApi.2.1
    let called := afterApi.2.2
    if tp1.isEmpty && !s.quickCache.isEmpty then
      { pairs := s.quickCache, state := s1, apiCalled := called }
    else if tp1.isEmpty then
      { pairs := tp1, state := s1, apiCalled := called }
    else
      { pairs := tp1
        state := { s1 with quickCache := tp1, quickCacheTime := some env.now }
        apiCalled := called }

/-- `MIN_TRADE_VALUE_USD = 49000` (`config/settings.py`). -/
def MIN_TRADE_VALUE_USD : ℚ := 49000

/-- `BATCH_SIZE = 50` (`config/settings.py`). -/
def BATCH_SIZE : Nat := 50

/-- The value-threshold loop of `ExchangeWorker.process_pair`
(`workers/exchange_worker.py` lines 195-202): every fetched raw trade is
parsed (through the exchange client, abstract here) and kept exactly when
`trade.value_usd >= Decimal(str(MIN_TRADE_VALUE_USD))`. -/
def processPairLoop {α : Type} (parse : α → Trade) : List α → List Trade
  | [] => []
  | d :: rest =>
      let t := parse d
      if MIN_TRADE_VALUE_USD ≤ t.valueUsd then t :: processPairLoop parse rest
      else processPairLoop parse rest

/-- Model of `ExchangeWorker.process_pair`
(`workers/exchange_worker.py` lines 179-206), with the per-pair fetched
raw data given as input.  An empty fetch result returns `[]` early. -/
def processPair {α : Type} (parse : α → Trade) (tradesData : List α) : List Trade :=
  if tradesData.isEmpty then [] else processPairLoop parse tradesData

/-- The batching of `run_cycle` (`workers/exchange_worker.py` line 234):
`for i in range(0, len(trading_pairs), BATCH_SIZE)` slices the pair list
into consecutive chunks of `n` elements. -/
def chunkList {α : Type} (n : Nat) (hn : 0 < n) : List α → List (List α)
  | [] => []
  | d :: rest =>
      (d :: rest).take n :: chunkList n hn ((d :: rest).drop n)
termination_by l => l.length
decreasing_by
  simp only [List.length_drop, List.length_cons]
  omega

/-- The trades one `run_cycle` batch hands to `save_trades`
(`workers/exchange_worker.py` lines 246-255): the concatenation, in
order, of the `process_pair` results of the pairs in the batch. -/
def batchTrades {α : Type} (parse : α → Trade) (batch : List (List α)) : List Trade :=
  (batch.map (processPair parse)).flatten

/-- All trades one `run_cycle` hands to the persistence layer across its
batches (`workers/exchange_worker.py` lines 234-258), with each pair of
the (already sorted) pair list represented by its fetched raw trade
list. -/
def runCycleSavedTrades {α : Type} (parse : α → Trade) (pairsData : List (List α)) :
    List Trade :=
  ((chunkList BATCH_SIZE (by decide) pairsData).map (batchTrades parse)).flatten

/-- State of `utils/rate_limiter.py : RateLimiter`: the configured
per-minute weight budget and the recorded `(timestamp, weight)`
admissions. -/
structure RateLimiter where
  maxWeightPerMinute : Nat
  requests : List (ℚ × Nat)
  deriving DecidableEq, Repr

/-- The pruning step of `acquire` (`utils/rate_limiter.py` lines 38-41):
keep the admissions strictly younger than 60 seconds. -/
def pruneOld (now : ℚ) (reqs : List (ℚ × Nat)) : List (ℚ × Nat) :=
  reqs.filter (fun p => decide (now - p.1 < 60))

/-- The weight sum of `acquire` (`utils/rate_limiter.py` line 44). -/
def currentWeightOf (reqs : List (ℚ × Nat)) : Nat :=
  (reqs.map (fun p => p.2)).sum

/-- `min(ts for ts, _ in self.requests)` (`utils/rate_limiter.py` line 53). -/
def oldestTimestamp (reqs : List (ℚ × Nat)) : Option ℚ :=
  match reqs.map (fun p => p.1) with
  | [] => none
  | t :: ts => some (ts.foldl min t)

/-- One iteration of the `while True` loop of `RateLimiter.acquire`
(`utils/rate_limiter.py` lines 33-63): prune, sum, admit when
`current + weight <= max_weight_per_minute` (recording the admission at
the current time, result `none`), otherwise compute the sleep duration
`max(0.1, 60 - (now - oldest) + 1)` (or `1.0` when no admission remains)
and report it (result `some wait`). -/
def acquireStep (rl : RateLimiter) (now : ℚ) (weight : Nat) :
    RateLimiter × Option ℚ :=
  let pruned := pruneOld now rl.requests
  let cw := currentWeightOf pruned
  if cw + weight ≤ rl.maxWeightPerMinute then
    ({ rl with requests := pruned ++ [(now, weight)] }, none)
  else
    let wait : ℚ :=
      match oldestTimestamp pruned with
      | some oldest => max (1/10) (60 - (now - oldest) + 1)
      | none => 1
    ({ rl with requests := pruned }, some wait)

/-- The `while True` loop of `acquire`, with the sleep advancing the
clock by exactly the computed wait and a fuel bound standing in for the
unbounded loop.  Returns the limiter state and the admission time, or
`none` when the fuel runs out before admission. -/
def acquireLoop (rl : RateLimiter) (now : ℚ) (weight : Nat) :
    Nat → Option (RateLimiter × ℚ)
  | 0 => none
  | fuel + 1 =>
      match acquireStep rl now weight with
      | (rl1, none) => some (rl1, now)
      | (rl1, some wait) => acquireLoop rl1 (now + wait) weight fuel

/-- Raw Bybit trade payload fields used by
`Trade.from_bybit_response` and `_process_trades_data`
(`database/models.py` lines 110-147, `bybit_continuous_monitor.py`
lines 188-208). -/
structure RawBybitTrade where
  execId : String
  price : ℚ
  size : ℚ
  side : String
  time : Int
  deriving DecidableEq, Repr

/-- Model of `Trade.from_bybit_response` (`database/models.py`
lines 110-147): `value_usd = price * size * quote_price_usd`, computed
once at parse time; in Bybit a `Sell` side means the buyer was the
maker. -/
def Trade.fromBybitResponse (d : RawBybitTrade) (pair : TradingPairInfo) : Trade :=
  { id := d.execId
    exchange := "bybit"
    symbol := pair.symbol
    baseAsset := pair.baseAsset
    price := d.price
    quantity := d.size
    valueUsd := d.price * d.size * pair.quotePriceUsd
    quoteAsset := pair.quoteAsset
    isBuyerMaker := d.side == "Sell"
    tradeTime := d.time }

/-- Result of one `_process_trades_data` call: the emitted new trades,
the updated seen-id set (a duplicate-free list), the updated last-seen
timestamp, and the number of raw trades filtered as duplicates. -/
structure DedupResult where
  newTrades : List Trade
  seen : List String
  lastSeen : Int
  dupFiltered : Nat
  deriving DecidableEq, Repr

/-- The per-trade loop of `_process_trades_data`
(`bybit_continuous_monitor.py` lines 188-214): a raw trade is admitted
exactly when its timestamp is strictly newer than the last-seen
timestamp recorded before the loop AND its id is not in the (growing)
seen-id set; otherwise the duplicate counter is bumped.  Admission adds
the id to the seen set and raises the running maximum timestamp. -/
def dedupLoop (pair : TradingPairInfo) (lastKnown : Int) :
    List RawBybitTrade → List String → Int → Nat →
      List Trade × List String × Int × Nat
  | [], seen, maxT, dups => ([], seen, maxT, dups)
  | d :: rest, seen, maxT, dups =>
      if lastKnown < d.time ∧ ¬ d.execId ∈ seen then
        let t := Trade.fromBybitResponse d pair
        let tail := dedupLoop pair lastKnown rest (seen ++ [d.execId]) (max maxT d.time) dups
        (t :: tail.1, tail.2)
      else
        dedupLoop pair lastKnown rest seen maxT (dups + 1)

/-- The seen-id truncation of `_process_trades_data`
(`bybit_continuous_monitor.py` lines 221-224): past 10000 ids, keep only
the 5000 largest in sorted order. -/
def truncateSeen (seen : List String) : List String :=
  if seen.length > 10000 then
    (seen.mergeSort (fun a b => a ≤ b)).drop (seen.length - 5000)
  else seen

/-- Model of `BybitContinuousMonitor._process_trades_data`
(`bybit_continuous_monitor.py` lines 176-226): empty input returns
immediately; otherwise the dedup loop runs with the symbol's recorded
last-seen timestamp and seen-id set, the last-seen timestamp is raised to
the maximum admitted timestamp, and the seen set is truncated. -/
def processTradesData (pair : TradingPairInfo) (lastKnown : Int)
    (seen : List String) (raws : List RawBybitTrade) : DedupResult :=
  if raws.isEmpty then
    { newTrades := [], seen := seen, lastSeen := lastKnown, dupFiltered := 0 }
  else
    let r := dedupLoop pair lastKnown raws seen lastKnown 0
    { newTrades := r.1
      seen := truncateSeen r.2.1
      lastSeen := if lastKnown < r.2.2.1 then r.2.2.1 else lastKnown
      dupFiltered := r.2.2.2 }

/-- One successful iteration of
`BybitContinuousMonitor._monitor_pair_continuously`
(`bybit_continuous_monitor.py` lines 126-136): the deduplicated new
trades are appended to the pending buffer unconditionally, and only
those at or above `MIN_TRADE_VALUE_USD` are selected for logging. -/
def monitorStep (pending : List Trade) (pair : TradingPairInfo)
    (lastKnown : Int) (seen : List String) (raws : List RawBybitTrade) :
    List Trade × List Trade :=
  let res := processTradesData pair lastKnown seen raws
  (pending ++ res.newTrades,
   res.newTrades.filter (fun t => decide (MIN_TRADE_VALUE_USD ≤ t.valueUsd)))

/-- The batch `_save_pending_trades` hands to `save_trades`
(`bybit_continuous_monitor.py` lines 239-258): a copy of the whole
pending buffer (nothing when the buffer is empty). -/
def savePendingBatch (pending : List Trade) : List Trade :=
  if pending.isEmpty then [] else pending

/-- Model of `BybitContinuousMonitor._save_pending_trades`
(`bybit_continuous_monitor.py` lines 239-258): the whole pending buffer
is copied, cleared, and handed to `save_trades`; on a persistence error
the copied trades are returned to the buffer. -/
def savePendingTrades (db : LargeTradesTable) (pending : List Trade) :
    LargeTradesTable × List Trade × Nat × Nat :=
  if pending.isEmpty then (db, pending, 0, 0)
  else
    match saveTrades db (savePendingBatch pending) with
    | some (db1, n, dups) => (db1, [], n, dups)
    | none => (db, savePendingBatch pending, 0, 0)

/-! Concrete sample inputs used by the closed theorems and witnesses below. -/

/-- A trade whose native id is an opaque, non-numeric string, as Bybit
`execId` values can be. -/
def tradeOpaqueId : Trade :=
  { id := "abc-123", exchange := "bybit", symbol := "BTCUSDT", baseAsset := "BTC"
    price := 50000, quantity := 2, valueUsd := 100000, quoteAsset := "USDT"
    isBuyerMaker := false, tradeTime := 1700000000000 }

/-- A Binance trade with numeric id 5. -/
def tradeBinance5 : Trade :=
  { id := "5", exchange := "binance", symbol := "BTCUSDT", baseAsset := "BTC"
    price := 50000, quantity := 2, valueUsd := 100000, quoteAsset := "USDT"
    isBuyerMaker := false, tradeTime := 1700000000000 }

/-- A Bybit trade that shares the numeric id 5 with `tradeBinance5` but
comes from a different exchange. -/
def tradeBybit5 : Trade :=
  { id := "5", exchange := "bybit", symbol := "ETHUSDT", baseAsset := "ETH"
    price := 3000, quantity := 20, valueUsd := 60000, quoteAsset := "USDT"
    isBuyerMaker := true, tradeTime := 1700000000500 }

/-- A trade with numeric id 7, used for the duplicate-in-one-batch run. -/
def tradeDup7 : Trade :=
  { id := "7", exchange := "binance", symbol := "BTCUSDT", baseAsset := "BTC"
    price := 60000, quantity := 1, valueUsd := 60000, quoteAsset := "USDT"
    isBuyerMaker := false, tradeTime := 1700000001000 }

/-- Persistent cache row for symbol XUSDT, active, last updated at time 0. -/
def rowX : PairRow :=
  { exchange := "binance", symbol := "XUSDT", baseAsset := "X", quoteAsset := "USDT"
    volume24hUsd := 100, quotePriceUsd := 1, isActive := true, lastUpdated := 0 }

/-- Persistent cache row for symbol ZUSDT, active, last updated at time 0. -/
def rowZ : PairRow :=
  { exchange := "binance", symbol := "ZUSDT", baseAsset := "Z", quoteAsset := "USDT"
    volume24hUsd := 50, quotePriceUsd := 1, isActive := true, lastUpdated := 0 }

/-- Incoming pair X with a changed volume. -/
def pairXIncoming : TradingPairInfo :=
  { exchange := "binance", symbol := "XUSDT", baseAsset := "X", quoteAsset := "USDT"
    volume24hUsd := 200, quotePriceUsd := 1 }

/-- Incoming pair Y, previously absent. -/
def pairYIncoming : TradingPairInfo :=
  { exchange := "binance", symbol := "YUSDT", baseAsset := "Y", quoteAsset := "USDT"
    volume24hUsd := 70, quotePriceUsd := 1 }

/-- A Bybit pair used by the monitor runs, with a quote asset worth 1 USD. -/
def pairBTC : TradingPairInfo :=
  { exchange := "bybit", symbol := "BTCUSDT", baseAsset := "BTC", quoteAsset := "USDT"
    volume24hUsd := 1000000, quotePriceUsd := 1 }

/-- A raw trade with a strictly newer timestamp whose id collides with an
already-seen id. -/
def rawCollide : RawBybitTrade :=
  { execId := "a", price := 2, size := 3, side := "Buy", time := 11 }

/-- A raw trade with a fresh id and a strictly newer timestamp. -/
def rawFresh : RawBybitTrade :=
  { execId := "b", price := 2, size := 3, side := "Buy", time := 12 }

/-- A raw trade whose USD value (1) is far below the 49000 threshold. -/
def rawSmall : RawBybitTrade :=
  { execId := "c", price := 1, size := 1, side := "Sell", time := 5 }

/-- A trading pair used by the cache-tier witness runs. -/
def pairCached : TradingPairInfo :=
  { exchange := "binance", symbol := "BTCUSDT", baseAsset := "BTC", quoteAsset := "USDT"
    volume24hUsd := 5000000, quotePriceUsd := 1 }

/-! Theorems. -/

/-- C8: `RateLimiter.acquire` admits only at a moment when the weights
recorded within the trailing 60-second window plus the requested weight
fit the per-minute budget, and then records the admission at the current
time (part 1, over the whole retry loop); when it cannot admit, the
computed sleep is the time until the oldest recorded admission leaves
the window plus a one-second margin, floored at 0.1 seconds (part 2). -/
theorem rateLimiter_acquire_sound :
    (∀ (fuel : Nat) (rl : RateLimiter) (now : ℚ) (weight : Nat)
       (rl1 : RateLimiter) (tAdm : ℚ),
       acquireLoop rl now weight fuel = some (rl1, tAdm) →
         rl1.maxWeightPerMinute = rl.maxWeightPerMinute ∧
         ∃ prev, rl1.requests = prev ++ [(tAdm, weight)] ∧
           currentWeightOf prev + weight ≤ rl.maxWeightPerMinute ∧
           ∀ p ∈ prev, tAdm - p.1 < 60) ∧
    (∀ (rl : RateLimiter) (now : ℚ) (weight : Nat) (d : ℚ),
       (acquireStep rl now weight).2 = some d →
         rl.maxWeightPerMinute <
           currentWeightOf (pruneOld now rl.requests) + weight ∧
         ∀ oldest, oldestTimestamp (pruneOld now rl.requests) = some oldest →
           d = max (1/10) (60 - (now - oldest) + 1)) := by
  constructor
  · intro fuel
    induction fuel with
    | zero =>
        intro rl now weight rl1 tAdm hloop
        simp [acquireLoop] at hloop
    | succ k ih =>
        intro rl now weight rl1 tAdm hloop
        by_cases h : currentWeightOf (pruneOld now rl.requests) + weight ≤ rl.maxWeightPerMinute
        · rw [acquireLoop] at hloop
          simp only [acquireStep, if_pos h, Option.some.injEq] at hloop
          cases hloop
          refine ⟨rfl, pruneOld now rl.requests, rfl, h, ?_⟩
          intro p hp
          have h2 := (List.mem_filter.mp hp).2
          simpa using h2
        · rw [acquireLoop] at hloop
          simp only [acquireStep, if_neg h] at hloop
          exact ih { rl with requests := pruneOld now rl.requests }
            (now + (match oldestTimestamp (pruneOld now rl.requests) with
                    | some oldest => max (1/10) (60 - (now - oldest) + 1)
                    | none => 1)) weight rl1 tAdm hloop
  · intro rl now weight d hd
    by_cases h : currentWeightOf (pruneOld now rl.requests) + weight ≤ rl.maxWeightPerMinute
    · simp [acquireStep, h] at hd
    · simp only [acquireStep, if_neg h] at hd
      refine ⟨not_le.mp h, ?_⟩
      intro oldest hold
      rw [hold] at hd
      exact (Option.some.inj hd).symm

/-- C8 witness: a limiter with budget 10 and a recorded admission of
weight 8 at time 0, asked for weight 5 at time 1: the first iteration
cannot admit and sleeps 60 seconds (until the admission ages out, plus
the margin), the second admits at time 61 recording (61, 5). -/
theorem rateLimiter_acquire_sound_witness :
    acquireLoop ⟨10, [(0, 8)]⟩ 1 5 2 = some (⟨10, [(61, 5)]⟩, 61) ∧
    ((⟨10, [(61, 5)]⟩ : RateLimiter).maxWeightPerMinute = 10 ∧
     ∃ prev, (⟨10, [(61, 5)]⟩ : RateLimiter).requests = prev ++ [(61, 5)] ∧
       currentWeightOf prev + 5 ≤ 10 ∧ ∀ p ∈ prev, (61 : ℚ) - p.1 < 60) := by
  have heq : acquireLoop ⟨10, [(0, 8)]⟩ 1 5 2 = some (⟨10, [(61, 5)]⟩, 61) := by
    norm_num [acquireLoop, acquireStep, pruneOld, currentWeightOf, oldestTimestamp]
  refine ⟨heq, ?_⟩
  exact rateLimiter_acquire_sound.1 2 ⟨10, [(0, 8)]⟩ 1 5 ⟨10, [(61, 5)]⟩ 61 heq

/-- Flattening the batch slices recovers the original list (for a
positive batch size). -/
theorem chunkList_flatten_aux {α : Type} (n : Nat) (hn : 0 < n) :
    ∀ (fuel : Nat) (l : List α), l.length ≤ fuel → (chunkList n hn l).flatten = l := by
  intro fuel
  induction fuel with
  | zero =>
      intro l h
      have hl : l = [] := List.eq_nil_of_length_eq_zero (Nat.le_zero.mp h)
      subst hl
      simp [chunkList]
  | succ k ih =>
      intro l h
      cases l with
      | nil => simp [chunkList]
      | cons d rest =>
          rw [chunkList, List.flatten_cons, ih]
          · exact List.take_append_drop n (d :: rest)
          · simp only [List.length_drop, List.length_cons] at h ⊢
            omega

/-- The batches of `run_cycle` partition the pair list. -/
theorem chunkList_flatten {α : Type} (n : Nat) (hn : 0 < n) (l : List α) :
    (chunkList n hn l).flatten = l :=
  chunkList_flatten_aux n hn l.length l le_rfl

/-- The early return of `process_pair` on an empty fetch coincides with
the general loop. -/
theorem processPair_eq_loop {α : Type} (parse : α → Trade) (l : List α) :
    processPair parse l = processPairLoop parse l := by
  cases l <;> simp [processPair, processPairLoop]

/-- Membership in a `process_pair` result characterised: exactly the
parses of fetched raw trades whose USD value meets the threshold. -/
theorem mem_processPairLoop {α : Type} (parse : α → Trade) :
    ∀ (l : List α) (t : Trade),
      t ∈ processPairLoop parse l ↔
        ∃ d ∈ l, t = parse d ∧ MIN_TRADE_VALUE_USD ≤ t.valueUsd := by
  intro l
  induction l with
  | nil => simp [processPairLoop]
  | cons d rest ih =>
      intro t
      by_cases h : MIN_TRADE_VALUE_USD ≤ (parse d).valueUsd
      · rw [processPairLoop, if_pos h]
        constructor
        · intro ht
          rcases List.mem_cons.mp ht with he | hm
          · exact ⟨d, List.mem_cons_self _ _, he, he ▸ h⟩
          · rcases (ih t).mp hm with ⟨e, he, heq, hge⟩
            exact ⟨e, List.mem_cons_of_mem _ he, heq, hge⟩
        · rintro ⟨e, he, heq, hge⟩
          rcases List.mem_cons.mp he with rfl | hm
          · exact heq ▸ List.mem_cons_self _ _
          · exact List.mem_cons_of_mem _ ((ih t).mpr ⟨e, hm, heq, hge⟩)
      · rw [processPairLoop, if_neg h]
        rw [ih t]
        constructor
        · rintro ⟨e, he, heq, hge⟩
          exact ⟨e, List.mem_cons_of_mem _ he, heq, hge⟩
        · rintro ⟨e, he, heq, hge⟩
          rcases List.mem_cons.mp he with rfl | hm
          · exact absurd (heq ▸ hge) h
          · exact ⟨e, hm, heq, hge⟩

/-- The batched cycle persists the same multiset of trades as the
unbatched concatenation of per-pair results. -/
theorem runCycleSavedTrades_eq {α : Type} (parse : α → Trade) (pairsData : List (List α)) :
    runCycleSavedTrades parse pairsData = (pairsData.map (processPair parse)).flatten := by
  have hgen : ∀ (L : List (List (List α))),
      (L.map (batchTrades parse)).flatten = (L.flatten.map (processPair parse)).flatten := by
    intro L
    induction L with
    | nil => simp
    | cons c cs ih =>
        simp [batchTrades, List.map_append, List.flatten_append, ih]
  rw [runCycleSavedTrades, hgen, chunkList_flatten]

/-- C4: a trade reaches the batch `run_cycle` hands to `save_trades` if
and only if it is the parse of some fetched raw trade of some pair and
its `value_usd` is at or above `MIN_TRADE_VALUE_USD` — so every parsed
trade strictly below the threshold is discarded before persistence, and
every parsed trade at or above it is included. -/
theorem runCycle_threshold_filter {α : Type} (parse : α → Trade)
    (pairsData : List (List α)) (t : Trade) :
    t ∈ runCycleSavedTrades parse pairsData ↔
      ∃ raws ∈ pairsData, ∃ d ∈ raws,
        t = parse d ∧ MIN_TRADE_VALUE_USD ≤ t.valueUsd := by
  rw [runCycleSavedTrades_eq]
  simp only [List.mem_flatten, List.mem_map]
  constructor
  · rintro ⟨L, ⟨raws, hraws, rfl⟩, ht⟩
    rw [processPair_eq_loop] at ht
    exact ⟨raws, hraws, (mem_processPairLoop parse raws t).mp ht⟩
  · rintro ⟨raws, hraws, hd⟩
    refine ⟨processPair parse raws, ⟨raws, hraws, rfl⟩, ?_⟩
    rw [processPair_eq_loop]
    exact (mem_processPairLoop parse raws t).mpr hd

/-- C10: in `BybitContinuousMonitor`, every trade that passes
deduplication is appended to the pending buffer and handed to
`save_trades` by the periodic flush regardless of its USD value — here
instantiated for a trade strictly below `MIN_TRADE_VALUE_USD`, which is
buffered and persisted but excluded from the large-trade log selection. -/
theorem monitor_stores_below_threshold
    (pending : List Trade) (pair : TradingPairInfo) (lastKnown : Int)
    (seen : List String) (raws : List RawBybitTrade) (t : Trade)
    (hmem : t ∈ (processTradesData pair lastKnown seen raws).newTrades)
    (hsmall : t.valueUsd < MIN_TRADE_VALUE_USD) :
    t ∈ (monitorStep pending pair lastKnown seen raws).1 ∧
    ¬ t ∈ (monitorStep pending pair lastKnown seen raws).2 ∧
    t ∈ savePendingBatch ((monitorStep pending pair lastKnown seen raws).1) := by
  have h1 : t ∈ (monitorStep pending pair lastKnown seen raws).1 := by
    simp only [monitorStep]
    exact List.mem_append_right _ hmem
  refine ⟨h1, ?_, ?_⟩
  · simp only [monitorStep, List.mem_filter, decide_eq_true_eq]
    rintro ⟨-, hge⟩
    exact absurd hge (not_le.mpr hsmall)
  · have hnn : (monitorStep pending pair lastKnown seen raws).1 ≠ [] :=
      List.ne_nil_of_mem h1
    have hemp : ((monitorStep pending pair lastKnown seen raws).1).isEmpty = false := by
      simp [List.isEmpty_iff, hnn]
    simp only [savePendingBatch, hemp, Bool.false_eq_true, if_false]
    exact h1

/-- C10 witness: a deduplicated trade of USD value 1 (far below the
49000 threshold) lands in the pending buffer and in the batch handed to
`save_trades`, and is not selected for logging. -/
theorem monitor_stores_below_threshold_witness :
    (Trade.fromBybitResponse rawSmall pairBTC ∈
       (processTradesData pairBTC 0 [] [rawSmall]).newTrades ∧
     (Trade.fromBybitResponse rawSmall pairBTC).valueUsd < MIN_TRADE_VALUE_USD) ∧
    (Trade.fromBybitResponse rawSmall pairBTC ∈
       (monitorStep [] pairBTC 0 [] [rawSmall]).1 ∧
     ¬ Trade.fromBybitResponse rawSmall pairBTC ∈ (monitorStep [] pairBTC 0 [] [rawSmall]).2 ∧
     Trade.fromBybitResponse rawSmall pairBTC ∈
       savePendingBatch ((monitorStep [] pairBTC 0 [] [rawSmall]).1)) := by
  have hmem : Trade.fromBybitResponse rawSmall pairBTC ∈
      (processTradesData pairBTC 0 [] [rawSmall]).newTrades := by
    simp [processTradesData, dedupLoop, rawSmall]
  have hsmall : (Trade.fromBybitResponse rawSmall pairBTC).valueUsd < MIN_TRADE_VALUE_USD := by
    norm_num [Trade.fromBybitResponse, rawSmall, pairBTC, MIN_TRADE_VALUE_USD]
  exact ⟨⟨hmem, hsmall⟩,
    monitor_stores_below_threshold [] pairBTC 0 [] [rawSmall]
      (Trade.fromBybitResponse rawSmall pairBTC) hmem hsmall⟩

/-- C9: the claim states that `DatabaseManager.save_trades` accepts a
batch containing a trade with a non-numeric native id without raising,
storing it under a derived 63-bit hash key.  The code evaluated at such a
batch: `save_trades` applies `int(trade.id)` directly (never
`Trade.to_db_values`, where the hash fallback lives), so the call raises
`ValueError` — modelled as `none` — and nothing is stored. -/
theorem saveTrades_raises_on_opaque_id :
    saveTrades [] [tradeOpaqueId] = none := by decide

/-- C2: the claim states the persistent store enforces uniqueness on the
composite `(exchange, id)` key, so trades from two different exchanges
sharing numeric id 5 are both stored as distinct rows.  The code
evaluated at that batch: the `large_trades` DDL declares
`id BIGINT PRIMARY KEY`, so `INSERT IGNORE` silently drops the second
exchange row — only one row is stored, and the dropped row is reported
neither as new nor as a duplicate. -/
theorem saveTrades_cross_exchange_id_collision :
    saveTrades [] [tradeBinance5, tradeBybit5] =
      some ([rowOfTrade tradeBinance5 5], 1, 0) ∧
    [rowOfTrade tradeBinance5 5].length = 1 := by decide

/-- C1 counterexample: the claim states that inserting the same trade
twice within one batch reports the second attempt in the duplicate count.
Evaluating `save_trades` on a batch holding the same trade (exchange
binance, id 7) twice over an empty table returns duplicate count 0: the
pre-check only consults the table, so the in-batch repeat is absorbed by
`INSERT IGNORE` and counted nowhere. -/
theorem saveTrades_in_batch_duplicate_uncounted :
    saveTrades [] [tradeDup7, tradeDup7] =
      some ([rowOfTrade tradeDup7 7], 1, 0) ∧ (0 : Nat) ≠ 1 := by decide

/-- C1 amended: storing the same trade (same exchange and id) twice
results in exactly one stored row and never an error; across two
separate `save_trades` calls the second attempt is reported in the
duplicate count; but within one batch the second occurrence is absorbed
silently by `INSERT IGNORE` and counted in neither the new count nor the
duplicate count. -/
theorem saveTrades_same_key_idempotent
    (db : LargeTradesTable) (t : Trade) (n : Int)
    (hn : pyIntOfString t.id = some n)
    (hfresh : ∀ r ∈ db, r.rowId ≠ n) :
    saveTrades db [t, t] = some (db ++ [rowOfTrade t n], 1, 0) ∧
    ((db ++ [rowOfTrade t n]).filter
        (fun r => r.exchange == t.exchange && r.rowId == n)).length = 1 ∧
    saveTrades (db ++ [rowOfTrade t n]) [t] = some (db ++ [rowOfTrade t n], 0, 1) := by
  have hkey : tradeKey t = some (t.exchange, n) := by simp [tradeKey, hn]
  have hnotex : ¬ ∃ x ∈ db, x.rowId = n := by
    rintro ⟨x, hx, he⟩
    exact hfresh x hx he
  have hany : (db.any fun row => row.exchange == t.exchange && row.rowId == n) = false := by
    simp only [List.any_eq_false]
    intro r hr
    simp [hfresh r hr]
  have hex2 : ∃ x ∈ db ++ [rowOfTrade t n], x.rowId = n :=
    ⟨rowOfTrade t n, by simp, rfl⟩
  simp only [rowOfTrade] at hex2
  have hfil : db.filter (fun r => r.exchange == t.exchange && r.rowId == n) = [] := by
    rw [List.filter_eq_nil_iff]
    intro r hr
    simp [hfresh r hr]
  refine ⟨?_, ?_, ?_⟩
  · simp [saveTrades, tradeKeys, hkey, dbHasPair, insertIgnoreMany, insertIgnoreRow,
      hany, hnotex, rowOfTrade]
    rw [if_pos hex2]
    simp
  · simp [List.filter_append, hfil, rowOfTrade]
  · simp [saveTrades, tradeKeys, hkey, dbHasPair, insertIgnoreMany, insertIgnoreRow,
      hany, rowOfTrade]

/-- C1 witness: the amended idempotence run at the concrete trade with
exchange binance and numeric id 7, over an initially empty table. -/
theorem saveTrades_same_key_idempotent_witness :
    pyIntOfString tradeDup7.id = some 7 ∧
    (saveTrades [] [tradeDup7, tradeDup7] = some ([] ++ [rowOfTrade tradeDup7 7], 1, 0) ∧
     ((([] : LargeTradesTable) ++ [rowOfTrade tradeDup7 7]).filter
        (fun r => r.exchange == tradeDup7.exchange && r.rowId == 7)).length = 1 ∧
     saveTrades ([] ++ [rowOfTrade tradeDup7 7]) [tradeDup7] =
       some ([] ++ [rowOfTrade tradeDup7 7], 0, 1)) :=
  ⟨by decide, saveTrades_same_key_idempotent [] tradeDup7 7 (by decide) (by simp)⟩

/-- C7 counterexample: the claim states that upserting `{X, Y}` over
previously active pairs `{X, Z}` returns the tuple `(1, 1, 1)`.
Evaluating `update_pairs_cache` on exactly that scenario returns
`(0, 2, 1)`: the code computes `added` as the net change of the
active-row count (2 before, 2 after, so 0) and `updated` as
`min(upsert rowcount, old active count) = min(3, 2) = 2`. -/
theorem updatePairsCache_counts_not_one_one_one :
    (updatePairsCache [rowX, rowZ] "binance" 100 [pairXIncoming, pairYIncoming]).2 =
      (0, 2, 1) ∧
    ((0, 2, 1) : Nat × Nat × Nat) ≠ (1, 1, 1) := by decide

/-- C7 amended: upserting `{X, Y}` over previously active `{X, Z}` marks
Z inactive without deleting it, updates X in place, inserts Y as active —
but the returned tuple is `(0, 2, 1)`, because `added` is the net change
in active-row count and `updated` is `min(upsert rowcount, previous
active count)`, not the per-symbol added/updated tallies. -/
theorem updatePairsCache_reconciliation :
    updatePairsCache [rowX, rowZ] "binance" 100 [pairXIncoming, pairYIncoming] =
      ([upsertRow "binance" 100 pairXIncoming,
        { rowZ with isActive := false },
        upsertRow "binance" 100 pairYIncoming], 0, 2, 1) ∧
    { rowZ with isActive := false } ∈
      (updatePairsCache [rowX, rowZ] "binance" 100 [pairXIncoming, pairYIncoming]).1 ∧
    (upsertRow "binance" 100 pairXIncoming).volume24hUsd = 200 ∧
    (upsertRow "binance" 100 pairYIncoming).isActive = true := by decide

/-- C3 counterexample: the claim states a trade with a strictly newer
timestamp is never treated as a duplicate even when its id collides with
an already-seen id.  Evaluating `_process_trades_data` with last-seen
timestamp 10, seen ids containing "a", and an incoming trade with
timestamp 11 and id "a": the trade is filtered (duplicate counter 1,
nothing emitted), because the source admits a trade only when the
timestamp is newer AND the id is unseen. -/
theorem processTradesData_newer_colliding_id_filtered :
    processTradesData pairBTC 10 ["a"] [rawCollide] =
      { newTrades := [], seen := ["a"], lastSeen := 10, dupFiltered := 1 } ∧
    (10 : Int) < rawCollide.time := by decide

/-- Soundness of the dedup loop: every emitted trade has a timestamp
strictly above the last-seen timestamp recorded before the loop, and an
id outside the initial seen-id set. -/
theorem dedupLoop_sound (pair : TradingPairInfo) (lastKnown : Int) :
    ∀ (raws : List RawBybitTrade) (seen : List String) (maxT : Int) (dups : Nat),
      ∀ t ∈ (dedupLoop pair lastKnown raws seen maxT dups).1,
        lastKnown < t.tradeTime ∧ ¬ t.id ∈ seen := by
  intro raws
  induction raws with
  | nil =>
      intro seen maxT dups t ht
      simp [dedupLoop] at ht
  | cons d rest ih =>
      intro seen maxT dups t ht
      by_cases h : lastKnown < d.time ∧ ¬ d.execId ∈ seen
      · rw [dedupLoop, if_pos h] at ht
        rcases List.mem_cons.mp ht with he | hm
        · subst he
          exact ⟨h.1, h.2⟩
        · have hr := ih (seen ++ [d.execId]) (max maxT d.time) dups t hm
          exact ⟨hr.1, fun hmem => hr.2 (List.mem_append_left _ hmem)⟩
      · rw [dedupLoop, if_neg h] at ht
        exact ih seen maxT (dups + 1) t ht

/-- Completeness of the dedup loop on batches with pairwise-distinct
ids: a raw trade with a strictly newer timestamp and an unseen id is
emitted. -/
theorem dedupLoop_complete (pair : TradingPairInfo) (lastKnown : Int) :
    ∀ (raws : List RawBybitTrade) (seen : List String) (maxT : Int) (dups : Nat)
      (d : RawBybitTrade),
      d ∈ raws →
      (raws.map (fun r => r.execId)).Nodup →
      lastKnown < d.time →
      ¬ d.execId ∈ seen →
      Trade.fromBybitResponse d pair ∈ (dedupLoop pair lastKnown raws seen maxT dups).1 := by
  intro raws
  induction raws with
  | nil =>
      intro seen maxT dups d hd
      simp at hd
  | cons r rest ih =>
      intro seen maxT dups d hd hnd htime hseen
      have hnd' : (rest.map (fun x => x.execId)).Nodup := (List.nodup_cons.mp hnd).2
      rcases List.mem_cons.mp hd with he | hm
      · subst he
        rw [dedupLoop, if_pos ⟨htime, hseen⟩]
        exact List.mem_cons_self _ _
      · by_cases h : lastKnown < r.time ∧ ¬ r.execId ∈ seen
        · rw [dedupLoop, if_pos h]
          have hne : d.execId ≠ r.execId := by
            intro he
            have : r.execId ∈ rest.map (fun x => x.execId) :=
              he ▸ List.mem_map_of_mem _ hm
            exact (List.nodup_cons.mp hnd).1 this
          have hseen' : ¬ d.execId ∈ seen ++ [r.execId] := by
            intro hmem
            rcases List.mem_append.mp hmem with hl | hr
            · exact hseen hl
            · exact hne (List.mem_singleton.mp hr)
          exact List.mem_cons_of_mem _
            (ih (seen ++ [r.execId]) (max maxT r.time) dups d hm hnd' htime hseen')
        · rw [dedupLoop, if_neg h]
          exact ih seen maxT (dups + 1) d hm hnd' htime hseen

/-- C3 amended: in `_process_trades_data`, a trade passes downstream
only if its timestamp is strictly newer than the recorded last-seen
timestamp AND its id is outside the seen-id set (so a trade with
timestamp at or below the last-seen mark, or with a seen id — even a
strictly newer one — is always filtered); conversely, on a batch of
pairwise-distinct ids, every trade with a strictly newer timestamp and
an unseen id is passed downstream. -/
theorem processTradesData_dedup :
    (∀ (pair : TradingPairInfo) (lastKnown : Int) (seen : List String)
       (raws : List RawBybitTrade) (t : Trade),
       t ∈ (processTradesData pair lastKnown seen raws).newTrades →
         lastKnown < t.tradeTime ∧ ¬ t.id ∈ seen) ∧
    (∀ (pair : TradingPairInfo) (lastKnown : Int) (seen : List String)
       (raws : List RawBybitTrade) (d : RawBybitTrade),
       d ∈ raws →
       (raws.map (fun r => r.execId)).Nodup →
       lastKnown < d.time →
       ¬ d.execId ∈ seen →
         Trade.fromBybitResponse d pair ∈
           (processTradesData pair lastKnown seen raws).newTrades) := by
  constructor
  · intro pair lastKnown seen raws t ht
    by_cases hr : raws.isEmpty
    · simp [processTradesData, hr] at ht
    · simp only [processTradesData, hr, Bool.false_eq_true, if_false] at ht
      exact dedupLoop_sound pair lastKnown raws seen lastKnown 0 t ht
  · intro pair lastKnown seen raws d hd hnd htime hseen
    by_cases hr : raws.isEmpty
    · rw [List.isEmpty_iff] at hr
      subst hr
      simp at hd
    · simp only [processTradesData, hr, Bool.false_eq_true, if_false]
      exact dedupLoop_complete pair lastKnown raws seen lastKnown 0 d hd hnd htime hseen

/-- C3 witness: a fresh-id trade with timestamp 12 against last-seen
timestamp 10 and seen set containing only "a" is passed downstream. -/
theorem processTradesData_dedup_witness :
    ((10 : Int) < rawFresh.time ∧ ¬ rawFresh.execId ∈ ["a"]) ∧
    Trade.fromBybitResponse rawFresh pairBTC ∈
      (processTradesData pairBTC 10 ["a"] [rawFresh]).newTrades :=
  ⟨⟨by decide, by decide⟩,
   processTradesData_dedup.2 pairBTC 10 ["a"] [rawFresh] rawFresh (by decide)
     (by decide) (by decide) (by decide)⟩

/-- C5: cache tier fallback ordering in `get_trading_pairs`.  Part 1: on
an in-process quick-cache miss, with the API cooldown in effect and the
persistent tier fresh (and nonempty), the call returns the
persistent-tier pairs, performs no API call, and populates the
in-process cache with them.  Part 2: with a previously populated but
stale in-process cache, the cooldown in effect, and the persistent tier
not fresh, the call returns the stale in-process contents rather than
nothing, again without an API call. -/
theorem getTradingPairs_tier_fallback :
    (∀ (s : WorkerCacheState) (env : CacheFetchEnv) (tl : ℚ),
       quickCacheHit s env.now = false →
       s.lastApiCall = some tl →
       env.now - tl < API_COOLDOWN →
       env.dbCacheFresh = true →
       env.dbCachedPairs ≠ [] →
         (getTradingPairs s env).pairs = env.dbCachedPairs ∧
         (getTradingPairs s env).apiCalled = false ∧
         (getTradingPairs s env).state.quickCache = env.dbCachedPairs) ∧
    (∀ (s : WorkerCacheState) (env : CacheFetchEnv) (t0 tl : ℚ),
       s.quickCache ≠ [] →
       s.quickCacheTime = some t0 →
       QUICK_CACHE_TTL ≤ env.now - t0 →
       s.lastApiCall = some tl →
       env.now - tl < API_COOLDOWN →
       env.dbCacheFresh = false →
         (getTradingPairs s env).pairs = s.quickCache ∧
         (getTradingPairs s env).apiCalled = false) := by
  constructor
  · intro s env tl hmiss hlast hcool hfresh hne
    have hapi : apiAllowedCheck s.lastApiCall env.now = false := by
      rw [hlast]
      simp only [apiAllowedCheck, decide_eq_false_iff_not, not_le]
      exact hcool
    have hdb : env.dbCachedPairs.isEmpty = false := by
      simpa [List.isEmpty_iff] using hne
    simp [getTradingPairs, hmiss, hapi, hfresh, hdb]
  · intro s env t0 tl hqc htime hstale hlast hcool hfresh
    have hmiss : quickCacheHit s env.now = false := by
      simp only [quickCacheHit, htime, Bool.and_eq_false_iff, decide_eq_false_iff_not, not_lt]
      right
      exact hstale
    have hapi : apiAllowedCheck s.lastApiCall env.now = false := by
      rw [hlast]
      simp only [apiAllowedCheck, decide_eq_false_iff_not, not_le]
      exact hcool
    have hqe : s.quickCache.isEmpty = false := by
      simpa [List.isEmpty_iff] using hqc
    simp [getTradingPairs, hmiss, hapi, hfresh, hqe]

/-- C5 witness: both fallback paths exercised at concrete inputs — a
cold quick cache with the persistent tier fresh at time 100, and a stale
quick cache (filled at 0, queried at 2000) with the persistent tier not
fresh. -/
theorem getTradingPairs_tier_fallback_witness :
    ((100 : ℚ) - 0 < API_COOLDOWN ∧
     (getTradingPairs ⟨[], none, some 0⟩ ⟨100, true, [pairCached], none⟩).pairs = [pairCached] ∧
     (getTradingPairs ⟨[], none, some 0⟩ ⟨100, true, [pairCached], none⟩).apiCalled = false ∧
     (getTradingPairs ⟨[], none, some 0⟩ ⟨100, true, [pairCached], none⟩).state.quickCache = [pairCached]) ∧
    (QUICK_CACHE_TTL ≤ (2000 : ℚ) - 0 ∧
     (getTradingPairs ⟨[pairCached], some 0, some 500⟩ ⟨2000, false, [], none⟩).pairs = [pairCached] ∧
     (getTradingPairs ⟨[pairCached], some 0, some 500⟩ ⟨2000, false, [], none⟩).apiCalled = false) := by
  constructor
  · have h := getTradingPairs_tier_fallback.1 ⟨[], none, some 0⟩ ⟨100, true, [pairCached], none⟩ 0
      (by decide) rfl (by norm_num [API_COOLDOWN]) rfl (by simp)
    exact ⟨by norm_num [API_COOLDOWN], h.1, h.2.1, h.2.2⟩
  · have h := getTradingPairs_tier_fallback.2 ⟨[pairCached], some 0, some 500⟩ ⟨2000, false, [], none⟩ 0 500
      (by simp) rfl (by norm_num [QUICK_CACHE_TTL]) rfl (by norm_num [API_COOLDOWN]) rfl
    exact ⟨by norm_num [QUICK_CACHE_TTL], h.1, h.2⟩

/-- C6: the claim states that whenever a `get_trading_pairs` refresh
fails, the recorded cooldown timestamp is cleared so the next cycle may
retry.  The code evaluated at the failing input (cold caches, no prior
API call, refresh failing): the refresh is attempted (`apiCalled`), the
call yields nothing, and the cooldown timestamp remains recorded at the
attempt time — `update_pairs_cache` catches every exception internally
and returns `None`, so the `except` branch in `get_trading_pairs` that
would clear `_last_api_call` never runs. -/
theorem getTradingPairs_failed_refresh_keeps_cooldown :
    getTradingPairs ⟨[], none, none⟩ ⟨100, false, [], none⟩ =
      ⟨[], ⟨[], none, some 100⟩, true⟩ ∧
    (⟨[], none, some 100⟩ : WorkerCacheState).lastApiCall ≠ none := by decide
